import Mathlib

/-!
Verification development for `kodi2jellyfin.py`, a one-shot tool migrating
Kodi "watched" state into a Jellyfin database.

The embedding below translates the source file shallowly:
  * `KodiWatched.parse` reads a tab-separated file through `csv.DictReader`;
    we model the already-tokenised input as a header (list of column names)
    and a list of rows (lists of cell strings), and model `DictReader`'s
    dictionary access: a name absent from the header raises `KeyError`,
    a row shorter than the header yields `None` for the trailing columns
    (Python's `restval`), and for a duplicated column name the last
    occurrence wins.
  * the external stdlib functions `int()` and `datetime.fromisoformat` are
    modelled as executable validators (`pyInt`, `fromisoformat`); `int()`
    accepts an optional sign followed by digits (crucially, it accepts
    negative numbers), `fromisoformat` is simplified to checking the
    leading `YYYY-MM-DD` shape of an ISO-8601 string — no claim depends on
    exactly which strings are valid timestamps.
  * the two sqlite databases become an explicit `DB` record of three row
    lists (`Users`, `TypedBaseItems`, `UserDatas`); `SELECT ... fetchone`
    becomes `List.find?`, `REPLACE INTO` keyed on `key` removes any row
    with the same key and appends the new row.
  * Python exceptions become the `PyErr` error type threaded through
    `Except`.  The spec's `UserNotFound` names the `TypeError` raised by
    subscripting the `None` returned for a missing user row; we give it
    its own constructor since it is a distinguished condition of the spec.
  * `sqlite3` transaction semantics (the `with jellyfin_con, library_con:`
    block commits on success and rolls back on an exception, per the
    Python docs cited in the source) are modelled in `kodi2jellyfin`: on
    any error the returned database state is the initial one.
  * store operations issued by the engine are recorded in an explicit
    trace (`Op`) so that "no lookup / no write was issued" is statable.
-/

/-- Python-level failure kinds reached by the program, plus the spec's named
error conditions.  `keyError`/`typeError`/`valueError` arise while decoding a
row (the spec's `MalformedRecord` family), `assertionError` is the engine's
`assert kodi_watched.last_played is not None`, `userNotFound` is the fatal
failure of the user lookup (in the source a `TypeError` from subscripting
`None`; the spec names the condition `UserNotFound`), `storeUnreachable` is a
failure to open either database. -/
inductive PyErr where
  | keyError
  | typeError
  | valueError
  | assertionError
  | userNotFound
  | storeUnreachable
deriving DecidableEq, Repr

/-- The spec's `MalformedRecord` taxonomy: structural/type validation
failures of an input row. -/
def PyErr.isMalformedRecord : PyErr → Bool
  | .keyError => true
  | .typeError => true
  | .valueError => true
  | _ => false

/-- A parsed `datetime.datetime` value, represented by its source text.
(The sqlite adapter registered in the source stores it as an epoch integer;
that representation detail is below the abstraction level used here.) -/
structure PyDatetime where
  iso : String
deriving DecidableEq, Repr

/-- Numeric value of a list of decimal digit characters. -/
def digitsVal (cs : List Char) : Nat :=
  cs.foldl (fun n c => n * 10 + (c.toNat - 48)) 0

/-- Modelled from the spec: the external builtin `int(str)` applied to the
`playCount` (integer string) column.  Accepts an optional single sign
followed by one or more digits; in particular it accepts negative numbers.
(Python additionally strips whitespace and allows grouping underscores;
those cases are irrelevant to every claim.) -/
def pyIntStr (s : String) : Option Int :=
  match s.data with
  | [] => none
  | c :: cs =>
    if c = '-' then
      if !cs.isEmpty && cs.all Char.isDigit then some (-(digitsVal cs : Int)) else none
    else if c = '+' then
      if !cs.isEmpty && cs.all Char.isDigit then some ((digitsVal cs : Int)) else none
    else
      if (c :: cs).all Char.isDigit then some ((digitsVal (c :: cs) : Int)) else none

/-- `int(x)` where `x` is a cell that may be missing (`None`): `TypeError`
on `None`, `ValueError` on a non-numeric string. -/
def pyInt : Option String → Except PyErr Int
  | none => .error .typeError
  | some s =>
    match pyIntStr s with
    | none => .error .valueError
    | some n => .ok n

/-- Modelled from the spec: `lastPlayed` is a "date-time string,
ISO-8601-compatible" parsed by the external `datetime.fromisoformat`;
simplified to validating the leading `YYYY-MM-DD` shape.  No claim depends
on which strings are valid timestamps, only on accept/reject behaviour. -/
def isIsoDatetime (s : String) : Bool :=
  match s.data with
  | y1 :: y2 :: y3 :: y4 :: '-' :: m1 :: m2 :: '-' :: d1 :: d2 :: _ =>
    y1.isDigit && y2.isDigit && y3.isDigit && y4.isDigit &&
    m1.isDigit && m2.isDigit && d1.isDigit && d2.isDigit
  | _ => false

/-- `datetime.fromisoformat(x)` on a possibly-missing cell: `TypeError` on
`None`, `ValueError` on an unparseable string, otherwise the timestamp. -/
def fromisoformat : Option String → Except PyErr PyDatetime
  | none => .error .typeError
  | some s => if isIsoDatetime s then .ok ⟨s⟩ else .error .valueError

/-- `csv.DictReader` row access `row[name]`.  Result `none` is a `KeyError`
(the column is absent from the header); `some none` is a present column
whose value is missing because the row is shorter than the header (Python
fills it with `restval = None`); `some (some v)` is a present value.  For a
duplicated column name the last occurrence wins, matching
`dict(zip(fieldnames, row))` followed by the `restval` fill loop. -/
def lookupField (header row : List String) (name : String) : Option (Option String) :=
  match header.reverse.findIdx? (fun h => h == name) with
  | none => none
  | some j => some (row[header.length - 1 - j]?)

/-- Dictionary access that raises `KeyError` when the column is absent. -/
def dictGet (header row : List String) (name : String) : Except PyErr (Option String) :=
  match lookupField header row name with
  | none => .error .keyError
  | some v => .ok v

/-- One row of the Kodi export (`@dataclass KodiWatched`).  The Python type
annotations are not enforced at runtime: `folder` and `file_name` are the
raw dictionary values and can be `None` when the row is short. -/
structure KodiWatched where
  folder : Option String
  file_name : Option String
  last_played : Option PyDatetime
  play_count : Int
deriving DecidableEq, Repr

/-- `KodiWatched.path`: `self.folder + self.file_name`.  Concatenating with
a `None` operand raises `TypeError`. -/
def KodiWatched.path (kw : KodiWatched) : Except PyErr String :=
  match kw.folder, kw.file_name with
  | some a, some b => .ok (a ++ b)
  | _, _ => .error .typeError

/-- Total variant of `KodiWatched.path` used when building the end-of-run
warning; in the engine the unmatched batch only ever holds records whose
path computed successfully, where the two functions agree. -/
def KodiWatched.pathOrEmpty (kw : KodiWatched) : String :=
  match kw.folder, kw.file_name with
  | some a, some b => a ++ b
  | _, _ => ""

/-- Decode one data row, in the source's evaluation order: `row['strPath']`,
`row['strFileName']`, `fromisoformat(row['lastPlayed'])`,
`int(row['playCount'])`. -/
def parseRow (header row : List String) : Except PyErr KodiWatched :=
  match dictGet header row "strPath" with
  | .error e => .error e
  | .ok folder =>
    match dictGet header row "strFileName" with
    | .error e => .error e
    | .ok file_name =>
      match dictGet header row "lastPlayed" with
      | .error e => .error e
      | .ok lpRaw =>
        match fromisoformat lpRaw with
        | .error e => .error e
        | .ok lp =>
          match dictGet header row "playCount" with
          | .error e => .error e
          | .ok pcRaw =>
            match pyInt pcRaw with
            | .error e => .error e
            | .ok pc => .ok ⟨folder, file_name, some lp, pc⟩

/-- `KodiWatched.parse` over the whole file: the generator yields one record
per non-header row and aborts the sequence at the first failing row. -/
def parseAll (header : List String) : List (List String) → Except PyErr (List KodiWatched)
  | [] => .ok []
  | row :: rest =>
    match parseRow header row with
    | .error e => .error e
    | .ok kw =>
      match parseAll header rest with
      | .error e => .error e
      | .ok kws => .ok (kw :: kws)

/-- `@dataclass JellyfinUser`. -/
structure JellyfinUser where
  username : String
  internal_id : String
deriving DecidableEq, Repr

/-- `@dataclass UserData`: one `UserDatas` row. -/
structure UserData where
  key : String
  user_id : String
  played : Bool
  play_count : Int
  last_played_date : PyDatetime
  is_favorite : Bool
  playback_position_ticks : Int
deriving DecidableEq, Repr

/-- One `Users` row of `jellyfin.db`. -/
structure UserRow where
  internalId : String
  username : String
deriving DecidableEq, Repr

/-- One `TypedBaseItems` row of `library.db` (the columns the program reads). -/
structure ItemRow where
  path : String
  userDataKey : String
deriving DecidableEq, Repr

/-- The persisted state behind the two sqlite connections. -/
structure DB where
  users : List UserRow
  items : List ItemRow
  userDatas : List UserData
deriving DecidableEq, Repr

/-- `JellyfinData.get_user_by_name`: `SELECT InternalId, Username FROM Users
WHERE Username = :username` then `fetchone()`.  When no row matches, the
source subscripts `None` and dies with a `TypeError`; the spec names this
condition `UserNotFound`, which is the constructor used here. -/
def get_user_by_name (db : DB) (username : String) : Except PyErr JellyfinUser :=
  match db.users.find? (fun r => r.username == username) with
  | none => .error .userNotFound
  | some row => .ok ⟨row.username, row.internalId⟩

/-- `JellyfinData.get_user_data_key_for_path`: `SELECT UserDataKey FROM
TypedBaseItems WHERE Path = :path`; a miss returns `None`, not an error. -/
def get_user_data_key_for_path (db : DB) (path : String) : Option String :=
  (db.items.find? (fun r => r.path == path)).map (fun r => r.userDataKey)

/-- `JellyfinData.upsert_user_data`: `REPLACE INTO UserDatas (key, userId,
played, playCount, lastPlayedDate, isFavorite, playbackPositionTicks)` with
`isFavorite = False` and `playbackPositionTicks = 0` hard-coded.  `REPLACE`
on the `key` key deletes any conflicting row and inserts the new one. -/
def upsert_user_data (db : DB) (key user_id : String) (played : Bool)
    (play_count : Int) (last_played_date : PyDatetime) : DB :=
  { db with userDatas :=
      (db.userDatas.filter (fun r => r.key != key)) ++
        [⟨key, user_id, played, play_count, last_played_date, false, 0⟩] }

/-- `JellyfinData.get_user_data`: `SELECT * FROM UserDatas WHERE key = :key`,
`None` on a miss. -/
def get_user_data (db : DB) (key : String) : Option UserData :=
  db.userDatas.find? (fun r => r.key == key)

/-- A store operation issued by the engine, for stating "no lookup / no
write happened". -/
inductive Op where
  | lookup_user (username : String)
  | lookup_path (path : String)
  | upsert (row : UserData)
deriving DecidableEq, Repr

/-- Whether an operation writes to the destination. -/
def Op.isUpsert : Op → Bool
  | .upsert _ => true
  | _ => false

/-- In-memory state of one engine pass: the (uncommitted) database, the
`kodi_watched_missing_from_jellyfin` batch, and the trace of issued store
operations. -/
structure EngState where
  db : DB
  missing : List KodiWatched
  trace : List Op
deriving DecidableEq, Repr

/-- `kodi_watched.folder.startswith("plugin://")` (evaluated only when the
folder is a string; on the skip path it always is, because `kodi_watched.path`
was computed first). -/
def folderIsPlugin : Option String → Bool
  | some f => ("plugin://".data).isPrefixOf f.data
  | none => false

/-- The source's per-record `skip` condition:
`kodi_watched.path == "/" or kodi_watched.folder.startswith("plugin://")`. -/
def skip (p : String) (folder : Option String) : Bool :=
  p == "/" || folderIsPlugin folder

/-- The body of the `for kodi_watched in KodiWatched.parse(...)` loop:
compute the path (a `None` field raises `TypeError`), apply the skip policy
(a skip is logged at debug level and leaves everything untouched), look the
path up in the items store, either defer the record to the unmatched batch
or assert `last_played is not None` and upsert. -/
def processRecord (user : JellyfinUser) (st : EngState) (kw : KodiWatched) :
    Except PyErr EngState :=
  match kw.path with
  | .error e => .error e
  | .ok p =>
    if skip p kw.folder then
      .ok st
    else
      match get_user_data_key_for_path st.db p with
      | none =>
        .ok { st with missing := st.missing ++ [kw],
                      trace := st.trace ++ [Op.lookup_path p] }
      | some key =>
        match kw.last_played with
        | none => .error .assertionError
        | some lp =>
          .ok { st with
                db := upsert_user_data st.db key user.internal_id
                        (decide (0 < kw.play_count)) kw.play_count lp,
                trace := st.trace ++
                  [Op.lookup_path p,
                   Op.upsert ⟨key, user.internal_id, decide (0 < kw.play_count),
                              kw.play_count, lp, false, 0⟩] }

/-- The engine pass: the generator decodes each row lazily, so decoding and
processing interleave; the first failure of either aborts the pass. -/
def runRows (header : List String) (user : JellyfinUser) :
    EngState → List (List String) → Except PyErr EngState
  | st, [] => .ok st
  | st, row :: rest =>
    match parseRow header row with
    | .error e => .error e
    | .ok kw =>
      match processRecord user st kw with
      | .error e => .error e
      | .ok st' => runRows header user st' rest

/-- The single end-of-run warning: the fixed first line, then one line per
unmatched record, appended in batch order. -/
def warningText (batch : List KodiWatched) : String :=
  batch.foldl (fun acc kw => acc ++ "\n" ++ kw.pathOrEmpty)
    "I ran into some files that are marked as watched in Kodi, but don\x27t exist over in Jellyfin"

/-- Observable outcome of one invocation of `kodi2jellyfin`: the result (an
uncaught exception or normal return), the committed database state, the
warnings logged, the final unmatched batch, and the trace of issued store
operations (for an aborted run the rolled-back operations are not kept —
only that no commit happened matters). -/
structure RunResult where
  result : Except PyErr Unit
  db : DB
  warnings : List String
  missing : List KodiWatched
  trace : List Op
deriving Repr

/-- The whole `kodi2jellyfin` entry point.  `reachable` models from the spec
whether both sqlite files can be opened (`StoreUnreachable` otherwise; the
filesystem is outside the program).  Per the sqlite3 context-manager
semantics the source cites: every error path rolls back, so the returned
database is the initial one; only a completed pass commits. -/
def kodi2jellyfin (db : DB) (reachable : Bool) (header : List String)
    (rows : List (List String)) (username : String) : RunResult :=
  if reachable then
    match get_user_by_name db username with
    | .error e => ⟨.error e, db, [], [], [Op.lookup_user username]⟩
    | .ok user =>
      match runRows header user ⟨db, [], [Op.lookup_user username]⟩ rows with
      | .error e => ⟨.error e, db, [], [], [Op.lookup_user username]⟩
      | .ok st =>
        ⟨.ok (), st.db,
         if st.missing.isEmpty then [] else [warningText st.missing],
         st.missing, st.trace⟩
  else
    ⟨.error .storeUnreachable, db, [], [], []⟩

/-- `main` exits non-zero exactly when `kodi2jellyfin` raises. -/
def exitCode (r : RunResult) : Nat :=
  match r.result with
  | .ok _ => 0
  | .error _ => 1

/-! ### Store-level lemmas -/

theorem upsert_users (db : DB) (k uid : String) (p : Bool) (pc : Int) (lpd : PyDatetime) :
    (upsert_user_data db k uid p pc lpd).users = db.users := rfl

theorem upsert_items (db : DB) (k uid : String) (p : Bool) (pc : Int) (lpd : PyDatetime) :
    (upsert_user_data db k uid p pc lpd).items = db.items := rfl

theorem key_for_path_congr {db db' : DB} (h : db'.items = db.items) (p : String) :
    get_user_data_key_for_path db' p = get_user_data_key_for_path db p := by
  unfold get_user_data_key_for_path
  rw [h]

theorem find?_filter_key_ne (l : List UserData) (k k' : String) (h : k ≠ k') :
    (l.filter (fun r => r.key != k')).find? (fun r => r.key == k) =
      l.find? (fun r => r.key == k) := by
  induction l with
  | nil => rfl
  | cons hd tl ih =>
    by_cases hk : hd.key = k
    · have hne : (hd.key != k') = true := by simp [hk, h]
      simp [List.filter_cons, hne, List.find?_cons, hk, ih, h]
    · by_cases hk' : hd.key = k'
      · simp [List.filter_cons, hk', List.find?_cons, hk, ih, Ne.symm h]
      · simp [List.filter_cons, hk', List.find?_cons, hk, ih]

theorem find?_filter_key_self (l : List UserData) (k : String) :
    (l.filter (fun r => r.key != k)).find? (fun r => r.key == k) = none := by
  rw [List.find?_eq_none]
  intro x hx
  have hmem := List.mem_filter.mp hx
  simpa using hmem.2

theorem get_user_data_upsert_self (db : DB) (k uid : String) (p : Bool) (pc : Int)
    (lpd : PyDatetime) :
    get_user_data (upsert_user_data db k uid p pc lpd) k =
      some ⟨k, uid, p, pc, lpd, false, 0⟩ := by
  unfold get_user_data upsert_user_data
  rw [List.find?_append, find?_filter_key_self]
  simp

theorem get_user_data_upsert_ne (db : DB) (k k' uid : String) (p : Bool) (pc : Int)
    (lpd : PyDatetime) (h : k ≠ k') :
    get_user_data (upsert_user_data db k' uid p pc lpd) k = get_user_data db k := by
  unfold get_user_data upsert_user_data
  rw [List.find?_append, find?_filter_key_ne _ _ _ h]
  have h2 : List.find? (fun r => r.key == k)
      [(⟨k', uid, p, pc, lpd, false, 0⟩ : UserData)] = none := by
    simp [List.find?_cons, Ne.symm h]
  rw [h2]
  cases db.userDatas.find? (fun r => r.key == k) <;> rfl

/-! ### Parsing lemmas -/

theorem dictGet_error {header row : List String} {name : String} {e : PyErr}
    (h : dictGet header row name = .error e) : e = .keyError := by
  unfold dictGet at h
  cases hl : lookupField header row name <;> rw [hl] at h <;> simp_all

theorem fromisoformat_error {o : Option String} {e : PyErr}
    (h : fromisoformat o = .error e) : e = .typeError ∨ e = .valueError := by
  unfold fromisoformat at h
  cases o with
  | none => simp_all
  | some s =>
    by_cases hs : isIsoDatetime s <;> simp_all [hs]

theorem pyInt_error {o : Option String} {e : PyErr}
    (h : pyInt o = .error e) : e = .typeError ∨ e = .valueError := by
  cases o with
  | none =>
    simp only [pyInt, Except.error.injEq] at h
    exact Or.inl h.symm
  | some s =>
    cases hs : pyIntStr s with
    | none =>
      simp only [pyInt, hs, Except.error.injEq] at h
      exact Or.inr h.symm
    | some n =>
      simp only [pyInt, hs] at h
      cases h

theorem parseRow_error_malformed {header row : List String} {e : PyErr}
    (h : parseRow header row = .error e) : e.isMalformedRecord = true := by
  cases h1 : dictGet header row "strPath" with
  | error e1 =>
    simp only [parseRow, h1, Except.error.injEq] at h
    rw [← h, dictGet_error h1]
    rfl
  | ok folder =>
    cases h2 : dictGet header row "strFileName" with
    | error e2 =>
      simp only [parseRow, h1, h2, Except.error.injEq] at h
      rw [← h, dictGet_error h2]
      rfl
    | ok file_name =>
      cases h3 : dictGet header row "lastPlayed" with
      | error e3 =>
        simp only [parseRow, h1, h2, h3, Except.error.injEq] at h
        rw [← h, dictGet_error h3]
        rfl
      | ok lpRaw =>
        cases h4 : fromisoformat lpRaw with
        | error e4 =>
          simp only [parseRow, h1, h2, h3, h4, Except.error.injEq] at h
          rcases fromisoformat_error h4 with h' | h' <;> rw [← h, h'] <;> rfl
        | ok lp =>
          cases h5 : dictGet header row "playCount" with
          | error e5 =>
            simp only [parseRow, h1, h2, h3, h4, h5, Except.error.injEq] at h
            rw [← h, dictGet_error h5]
            rfl
          | ok pcRaw =>
            cases h6 : pyInt pcRaw with
            | error e6 =>
              simp only [parseRow, h1, h2, h3, h4, h5, h6, Except.error.injEq] at h
              rcases pyInt_error h6 with h' | h' <;> rw [← h, h'] <;> rfl
            | ok pc =>
              simp only [parseRow, h1, h2, h3, h4, h5, h6] at h
              cases h

theorem parseRow_ok_shape {header row : List String} {kw : KodiWatched}
    (h : parseRow header row = .ok kw) :
    ∃ folder file_name lpRaw lp pcRaw,
      dictGet header row "strPath" = .ok folder ∧
      dictGet header row "strFileName" = .ok file_name ∧
      dictGet header row "lastPlayed" = .ok lpRaw ∧
      fromisoformat lpRaw = .ok lp ∧
      dictGet header row "playCount" = .ok pcRaw ∧
      pyInt pcRaw = .ok kw.play_count ∧
      kw = ⟨folder, file_name, some lp, kw.play_count⟩ := by
  cases h1 : dictGet header row "strPath" with
  | error e1 => simp only [parseRow, h1] at h; cases h
  | ok folder =>
    cases h2 : dictGet header row "strFileName" with
    | error e2 => simp only [parseRow, h1, h2] at h; cases h
    | ok file_name =>
      cases h3 : dictGet header row "lastPlayed" with
      | error e3 => simp only [parseRow, h1, h2, h3] at h; cases h
      | ok lpRaw =>
        cases h4 : fromisoformat lpRaw with
        | error e4 => simp only [parseRow, h1, h2, h3, h4] at h; cases h
        | ok lp =>
          cases h5 : dictGet header row "playCount" with
          | error e5 => simp only [parseRow, h1, h2, h3, h4, h5] at h; cases h
          | ok pcRaw =>
            cases h6 : pyInt pcRaw with
            | error e6 => simp only [parseRow, h1, h2, h3, h4, h5, h6] at h; cases h
            | ok pc =>
              simp only [parseRow, h1, h2, h3, h4, h5, h6, Except.ok.injEq] at h
              subst h
              exact ⟨folder, file_name, lpRaw, lp, pcRaw, rfl, rfl, rfl, h4, rfl, h6, rfl⟩

/-! ### Engine lemmas -/

theorem path_error_typeError {kw : KodiWatched} {e : PyErr} (h : kw.path = .error e) :
    e = .typeError := by
  cases hf : kw.folder <;> cases hn : kw.file_name <;>
    simp_all [KodiWatched.path]

theorem processRecord_skip {user : JellyfinUser} {st : EngState} {kw : KodiWatched} {p : String}
    (hp : kw.path = .ok p) (hs : skip p kw.folder = true) :
    processRecord user st kw = .ok st := by
  simp [processRecord, hp, hs]

theorem processRecord_unmatched {user : JellyfinUser} {st : EngState} {kw : KodiWatched}
    {p : String} (hp : kw.path = .ok p) (hs : skip p kw.folder = false)
    (hkey : get_user_data_key_for_path st.db p = none) :
    processRecord user st kw =
      .ok { st with missing := st.missing ++ [kw], trace := st.trace ++ [Op.lookup_path p] } := by
  simp [processRecord, hp, hs, hkey]

theorem processRecord_matched {user : JellyfinUser} {st : EngState} {kw : KodiWatched}
    {p key : String} {lp : PyDatetime} (hp : kw.path = .ok p) (hs : skip p kw.folder = false)
    (hkey : get_user_data_key_for_path st.db p = some key) (hlp : kw.last_played = some lp) :
    processRecord user st kw =
      .ok { st with
            db := upsert_user_data st.db key user.internal_id
                    (decide (0 < kw.play_count)) kw.play_count lp,
            trace := st.trace ++
              [Op.lookup_path p,
               Op.upsert ⟨key, user.internal_id, decide (0 < kw.play_count),
                          kw.play_count, lp, false, 0⟩] } := by
  simp [processRecord, hp, hs, hkey, hlp]

theorem processRecord_ok_inv {user : JellyfinUser} {st : EngState} {kw : KodiWatched}
    {st' : EngState} (h : processRecord user st kw = .ok st') :
    ∃ p, kw.path = .ok p ∧
      ((skip p kw.folder = true ∧ st' = st) ∨
       (skip p kw.folder = false ∧ get_user_data_key_for_path st.db p = none ∧
          st' = { st with missing := st.missing ++ [kw],
                          trace := st.trace ++ [Op.lookup_path p] }) ∨
       (∃ key lp, skip p kw.folder = false ∧
          get_user_data_key_for_path st.db p = some key ∧ kw.last_played = some lp ∧
          st' = { st with
                  db := upsert_user_data st.db key user.internal_id
                          (decide (0 < kw.play_count)) kw.play_count lp,
                  trace := st.trace ++
                    [Op.lookup_path p,
                     Op.upsert ⟨key, user.internal_id, decide (0 < kw.play_count),
                                kw.play_count, lp, false, 0⟩] })) := by
  cases hp : kw.path with
  | error e => simp only [processRecord, hp] at h; cases h
  | ok p =>
    cases hs : skip p kw.folder with
    | true =>
      rw [processRecord_skip hp hs] at h
      cases h
      exact ⟨p, rfl, Or.inl ⟨hs, rfl⟩⟩
    | false =>
      cases hkey : get_user_data_key_for_path st.db p with
      | none =>
        rw [processRecord_unmatched hp hs hkey] at h
        cases h
        exact ⟨p, rfl, Or.inr (Or.inl ⟨hs, hkey, rfl⟩)⟩
      | some key =>
        cases hlp : kw.last_played with
        | none => simp [processRecord, hp, hs, hkey, hlp] at h
        | some lp =>
          rw [processRecord_matched hp hs hkey hlp] at h
          cases h
          exact ⟨p, rfl, Or.inr (Or.inr ⟨key, lp, hs, hkey, rfl, rfl⟩)⟩

theorem processRecord_users_items {user : JellyfinUser} {st : EngState} {kw : KodiWatched}
    {st' : EngState} (h : processRecord user st kw = .ok st') :
    st'.db.users = st.db.users ∧ st'.db.items = st.db.items := by
  obtain ⟨p, hp, hcase⟩ := processRecord_ok_inv h
  rcases hcase with ⟨_, rfl⟩ | ⟨_, _, rfl⟩ | ⟨key, lp, _, _, _, rfl⟩ <;> exact ⟨rfl, rfl⟩

theorem processRecord_frame {user : JellyfinUser} {st : EngState} {kw : KodiWatched}
    {st' : EngState} (h : processRecord user st kw = .ok st') (k : String)
    (hk : ∀ p, kw.path = .ok p → skip p kw.folder = false →
          get_user_data_key_for_path st.db p ≠ some k) :
    get_user_data st'.db k = get_user_data st.db k := by
  obtain ⟨p, hp, hcase⟩ := processRecord_ok_inv h
  rcases hcase with ⟨_, rfl⟩ | ⟨_, _, rfl⟩ | ⟨key, lp, hs, hkey, hlp, rfl⟩
  · rfl
  · rfl
  · have hne : key ≠ k := fun he => hk p hp hs (he ▸ hkey)
    exact get_user_data_upsert_ne st.db k key user.internal_id _ _ _ (Ne.symm hne)

theorem processRecord_total (user : JellyfinUser) (st : EngState) (kw : KodiWatched)
    (hf : kw.folder.isSome = true) (hn : kw.file_name.isSome = true)
    (hl : kw.last_played.isSome = true) :
    ∃ st', processRecord user st kw = .ok st' := by
  obtain ⟨a, ha⟩ := Option.isSome_iff_exists.mp hf
  obtain ⟨b, hb⟩ := Option.isSome_iff_exists.mp hn
  obtain ⟨t, ht⟩ := Option.isSome_iff_exists.mp hl
  have hp : kw.path = .ok (a ++ b) := by unfold KodiWatched.path; rw [ha, hb]
  cases hs : skip (a ++ b) kw.folder with
  | true => exact ⟨st, processRecord_skip hp hs⟩
  | false =>
    cases hkey : get_user_data_key_for_path st.db (a ++ b) with
    | none => exact ⟨_, processRecord_unmatched hp hs hkey⟩
    | some key => exact ⟨_, processRecord_matched hp hs hkey ht⟩

theorem runRows_total (header : List String) (user : JellyfinUser) :
    ∀ (rows : List (List String)) (st : EngState),
    (∀ r ∈ rows, ∃ kw, parseRow header r = .ok kw ∧
        kw.folder.isSome = true ∧ kw.file_name.isSome = true ∧
        kw.last_played.isSome = true) →
    ∃ st', runRows header user st rows = .ok st' := by
  intro rows
  induction rows with
  | nil => exact fun st _ => ⟨st, rfl⟩
  | cons row rest ih =>
    intro st hrows
    obtain ⟨kw, hkw, hf, hn, hl⟩ := hrows row (List.mem_cons_self row rest)
    obtain ⟨st1, hst1⟩ := processRecord_total user st kw hf hn hl
    obtain ⟨st', hst'⟩ := ih st1 (fun r hr => hrows r (List.mem_cons_of_mem _ hr))
    exact ⟨st', by simp only [runRows, hkw, hst1, hst']⟩

theorem runRows_frame (header : List String) (user : JellyfinUser) :
    ∀ (rows : List (List String)) (st st' : EngState),
    runRows header user st rows = .ok st' →
    st'.db.users = st.db.users ∧ st'.db.items = st.db.items ∧
    ∀ k : String,
      (∀ r ∈ rows, ∀ kw, parseRow header r = .ok kw → ∀ p, kw.path = .ok p →
        skip p kw.folder = false → get_user_data_key_for_path st.db p ≠ some k) →
      get_user_data st'.db k = get_user_data st.db k := by
  intro rows
  induction rows with
  | nil =>
    intro st st' h
    simp only [runRows] at h
    cases h
    exact ⟨rfl, rfl, fun k _ => rfl⟩
  | cons row rest ih =>
    intro st st' h
    cases h1 : parseRow header row with
    | error e => simp only [runRows, h1] at h; cases h
    | ok kw =>
      cases h2 : processRecord user st kw with
      | error e => simp only [runRows, h1, h2] at h; cases h
      | ok st1 =>
        simp only [runRows, h1, h2] at h
        obtain ⟨hu1, hi1⟩ := processRecord_users_items h2
        obtain ⟨hu, hi, hframe⟩ := ih st1 st' h
        refine ⟨hu.trans hu1, hi.trans hi1, ?_⟩
        intro k hk
        have e1 : get_user_data st'.db k = get_user_data st1.db k := by
          refine hframe k ?_
          intro r hr kw' hkw' p hp hs
          rw [key_for_path_congr hi1 p]
          exact hk r (List.mem_cons_of_mem _ hr) kw' hkw' p hp hs
        have e2 : get_user_data st1.db k = get_user_data st.db k :=
          processRecord_frame h2 k
            (fun p hp hs => hk row (List.mem_cons_self row rest) kw h1 p hp hs)
        exact e1.trans e2

/-! ### Warning-text lemmas -/

theorem foldl_warn_data (l : List KodiWatched) :
    ∀ acc : String, ∃ s : List Char,
      (List.foldl (fun a kw => a ++ "\n" ++ kw.pathOrEmpty) acc l).data = acc.data ++ s := by
  induction l with
  | nil => exact fun acc => ⟨[], by simp⟩
  | cons hd tl ih =>
    intro acc
    obtain ⟨s, hs⟩ := ih (acc ++ "\n" ++ hd.pathOrEmpty)
    refine ⟨'\n' :: (hd.pathOrEmpty.data ++ s), ?_⟩
    rw [List.foldl_cons, hs, String.data_append, String.data_append]
    simp

theorem foldl_warn_mem (l : List KodiWatched) :
    ∀ (acc : String) (kw : KodiWatched), kw ∈ l →
      ∃ u v : List Char,
        (List.foldl (fun a kw => a ++ "\n" ++ kw.pathOrEmpty) acc l).data =
          u ++ kw.pathOrEmpty.data ++ v := by
  induction l with
  | nil => intro acc kw h; cases h
  | cons hd tl ih =>
    intro acc kw h
    rcases List.mem_cons.mp h with rfl | h
    · obtain ⟨s, hs⟩ := foldl_warn_data tl (acc ++ "\n" ++ kw.pathOrEmpty)
      refine ⟨acc.data ++ ['\n'], s, ?_⟩
      rw [List.foldl_cons, hs, String.data_append, String.data_append]
    · obtain ⟨u, v, huv⟩ := ih (acc ++ "\n" ++ hd.pathOrEmpty) kw h
      exact ⟨u, v, by rw [List.foldl_cons]; exact huv⟩

theorem warningText_mem {batch : List KodiWatched} {kw : KodiWatched} (h : kw ∈ batch) :
    ∃ u v : List Char, (warningText batch).data = u ++ kw.pathOrEmpty.data ++ v :=
  foldl_warn_mem batch _ kw h

/-! ### Sequence-level parsing lemmas -/

theorem parseAll_error_at_first_bad (header : List String) :
    ∀ (pre : List (List String)) (bad : List String) (rest : List (List String)) (e : PyErr),
    (∀ r ∈ pre, ∃ kw, parseRow header r = .ok kw) →
    parseRow header bad = .error e →
    parseAll header (pre ++ bad :: rest) = .error e := by
  intro pre
  induction pre with
  | nil =>
    intro bad rest e _ hbad
    simp only [List.nil_append, parseAll, hbad]
  | cons r pre ih =>
    intro bad rest e hpre hbad
    obtain ⟨kw, hkw⟩ := hpre r (List.mem_cons_self r pre)
    have hrec := ih bad rest e (fun r' hr' => hpre r' (List.mem_cons_of_mem _ hr')) hbad
    simp only [List.cons_append, parseAll, hkw]
    rw [List.append_eq, hrec]

theorem parseAll_ok_nth (header : List String) :
    ∀ (rows : List (List String)) (kws : List KodiWatched),
    parseAll header rows = .ok kws →
    kws.length = rows.length ∧
    ∀ (i : Nat) (r : List String), rows[i]? = some r →
      ∃ kw, parseRow header r = .ok kw ∧ kws[i]? = some kw := by
  intro rows
  induction rows with
  | nil =>
    intro kws h
    simp only [parseAll, Except.ok.injEq] at h
    subst h
    exact ⟨rfl, by intro i r hr; simp at hr⟩
  | cons row rest ih =>
    intro kws h
    cases h1 : parseRow header row with
    | error e => simp only [parseAll, h1] at h; cases h
    | ok kw =>
      cases h2 : parseAll header rest with
      | error e => simp only [parseAll, h1, h2] at h; cases h
      | ok kws' =>
        simp only [parseAll, h1, h2, Except.ok.injEq] at h
        subst h
        obtain ⟨hlen, hnth⟩ := ih kws' h2
        refine ⟨by simp [hlen], ?_⟩
        intro i r hr
        cases i with
        | zero =>
          simp only [List.getElem?_cons_zero, Option.some.injEq] at hr
          subst hr
          exact ⟨kw, h1, by simp⟩
        | succ n =>
          simp only [List.getElem?_cons_succ] at hr
          obtain ⟨kw', hkw', hn⟩ := hnth n r hr
          exact ⟨kw', hkw', by simpa using hn⟩

theorem parseRow_last_played_isSome {header row : List String} {kw : KodiWatched}
    (h : parseRow header row = .ok kw) : kw.last_played.isSome = true := by
  obtain ⟨folder, file_name, lpRaw, lp, pcRaw, _, _, _, _, _, _, hshape⟩ := parseRow_ok_shape h
  rw [hshape]
  rfl

/-! ### Concrete sample data used by the witnesses -/

/-- The documented header, in the column order of the README format. -/
def stdHeader : List String := ["strPath", "strFileName", "lastPlayed", "playCount"]

/-- A destination state with one user, one library item, and a pre-existing
`UserDatas` row for that item carrying `isFavorite = true` and a non-zero
`playbackPositionTicks`. -/
def sampleDB : DB :=
  ⟨[⟨"u1", "jeremy"⟩],
   [⟨"/movies/foo.mkv", "key1"⟩],
   [⟨"key1", "u9", false, 0, ⟨"2020-01-01T00:00:00"⟩, true, 77⟩]⟩

/-- The record decoded from the spec's end-to-end example row. -/
def sampleKw : KodiWatched :=
  ⟨some "/movies/", some "foo.mkv", some ⟨"2023-01-01T00:00:00"⟩, 3⟩

/-- A record whose path has no items-store mapping in `sampleDB`. -/
def sampleKwUnmatched : KodiWatched :=
  ⟨some "/movies/", some "bar.mkv", some ⟨"2023-01-01T00:00:00"⟩, 2⟩

/-! ### Claims -/

/-- C1: for a watch record whose path resolves to an item key, the engine's
upsert leaves the destination `UserDatas` row for that key exactly equal to
(key, userId = resolved user internal id, played = (playCount > 0),
playCount, lastPlayedDate = the record's lastPlayed, isFavorite = false,
playbackPositionTicks = 0), fully replacing any pre-existing row for that
key - including rows that had `isFavorite = true` or non-zero
`playbackPositionTicks` (the initial store is universally quantified). -/
theorem C1_upsert_replaces_row (user : JellyfinUser) (st : EngState) (kw : KodiWatched)
    (p key : String) (t : PyDatetime)
    (hp : kw.path = .ok p) (hs : skip p kw.folder = false)
    (hkey : get_user_data_key_for_path st.db p = some key)
    (hlp : kw.last_played = some t) :
    ∃ st', processRecord user st kw = .ok st' ∧
      get_user_data st'.db key =
        some ⟨key, user.internal_id, decide (0 < kw.play_count), kw.play_count, t,
              false, 0⟩ := by
  refine ⟨_, processRecord_matched hp hs hkey hlp, ?_⟩
  exact get_user_data_upsert_self st.db key user.internal_id _ _ _

/-- Witness for C1 at the spec's end-to-end example: the pre-existing row for
`key1` in `sampleDB` has `isFavorite = true` and `playbackPositionTicks = 77`
and is fully replaced. -/
theorem C1_upsert_replaces_row_witness :
    ∃ st', processRecord ⟨"jeremy", "u1"⟩ ⟨sampleDB, [], []⟩ sampleKw = .ok st' ∧
      get_user_data st'.db "key1" =
        some ⟨"key1", "u1", true, 3, ⟨"2023-01-01T00:00:00"⟩, false, 0⟩ :=
  C1_upsert_replaces_row ⟨"jeremy", "u1"⟩ ⟨sampleDB, [], []⟩ sampleKw
    "/movies/foo.mkv" "key1" ⟨"2023-01-01T00:00:00"⟩ rfl rfl rfl rfl

/-- C2: a run that raises any fatal error leaves the destination stores
unchanged - no partial writes are visible; upserts become visible only when
the full pass completes (sqlite context-manager rollback, as modelled in
`kodi2jellyfin`). -/
theorem C2_all_or_nothing (db : DB) (reachable : Bool) (header : List String)
    (rows : List (List String)) (username : String) (e : PyErr)
    (h : (kodi2jellyfin db reachable header rows username).result = .error e) :
    (kodi2jellyfin db reachable header rows username).db = db := by
  unfold kodi2jellyfin at h ⊢
  cases reachable with
  | false => simp
  | true =>
    cases hu : get_user_by_name db username with
    | error e' => simp [hu]
    | ok user =>
      cases hr : runRows header user ⟨db, [], [Op.lookup_user username]⟩ rows with
      | error e' => simp [hu, hr]
      | ok st => simp [hu, hr] at h

/-- Witness for C2: a malformed third column (`"bad-date"`) aborts the run
with a `ValueError` part-way through and the store is unchanged. -/
theorem C2_all_or_nothing_witness :
    (kodi2jellyfin sampleDB true stdHeader
        [["/movies/", "foo.mkv", "bad-date", "3"]] "jeremy").db = sampleDB :=
  C2_all_or_nothing sampleDB true stdHeader
    [["/movies/", "foo.mkv", "bad-date", "3"]] "jeremy" .valueError rfl

/-- C3: a record whose path is `"/"`, or whose directory starts with the
virtual-source marker `"plugin://"`, is skipped before any store access:
the engine state (database, unmatched batch, and operation trace) is
returned untouched, so no items-store lookup and no upsert is issued and
the record is not added to the unmatched report; the `"/"` case applies
regardless of the record's other fields. -/
theorem C3_skip_policy (user : JellyfinUser) (st : EngState) (kw : KodiWatched)
    (p : String) (hp : kw.path = .ok p)
    (h : p = "/" ∨ folderIsPlugin kw.folder = true) :
    processRecord user st kw = .ok st := by
  have hs : skip p kw.folder = true := by
    rcases h with rfl | h
    · simp [skip]
    · simp [skip, h]
  exact processRecord_skip hp hs

/-- Witness for C3: a `plugin://` record leaves the state untouched. -/
theorem C3_skip_policy_witness :
    processRecord ⟨"jeremy", "u1"⟩ ⟨sampleDB, [], []⟩
      ⟨some "plugin://video/", some "x.mkv", some ⟨"2023-01-01T00:00:00"⟩, 1⟩ =
      .ok ⟨sampleDB, [], []⟩ :=
  C3_skip_policy ⟨"jeremy", "u1"⟩ ⟨sampleDB, [], []⟩
    ⟨some "plugin://video/", some "x.mkv", some ⟨"2023-01-01T00:00:00"⟩, 1⟩
    "plugin://video/x.mkv" rfl (Or.inr (by decide))

/-- C5: applying the same upsert twice for the same resolved key and user is
idempotent - the whole destination store (and in particular the `UserDatas`
row for that key) after the second application equals the store after the
first. -/
theorem C5_upsert_idempotent (db : DB) (key user_id : String) (played : Bool)
    (play_count : Int) (last_played_date : PyDatetime) :
    upsert_user_data (upsert_user_data db key user_id played play_count last_played_date)
        key user_id played play_count last_played_date =
      upsert_user_data db key user_id played play_count last_played_date := by
  unfold upsert_user_data
  simp [List.filter_append, List.filter_filter]

/-- C6: when the destination username matches no row in the users store, the
run fails with the `UserNotFound` error, the failure is fatal (the run's
result is that error), and it happens before any destination write: the
stores are unchanged and the operation trace contains no upsert. -/
theorem C6_user_not_found (db : DB) (header : List String)
    (rows : List (List String)) (username : String)
    (h : db.users.find? (fun r => r.username == username) = none) :
    (kodi2jellyfin db true header rows username).result = .error .userNotFound ∧
    (kodi2jellyfin db true header rows username).db = db ∧
    ∀ op ∈ (kodi2jellyfin db true header rows username).trace, op.isUpsert = false := by
  have hu : get_user_by_name db username = .error .userNotFound := by
    unfold get_user_by_name
    rw [h]
  refine ⟨?_, ?_, ?_⟩ <;> simp [kodi2jellyfin, hu, Op.isUpsert]

/-- Witness for C6: an empty users store rejects every username. -/
theorem C6_user_not_found_witness :
    (kodi2jellyfin ⟨[], [], []⟩ true stdHeader [] "jeremy").result =
        .error .userNotFound ∧
      (kodi2jellyfin ⟨[], [], []⟩ true stdHeader [] "jeremy").db = ⟨[], [], []⟩ ∧
      ∀ op ∈ (kodi2jellyfin ⟨[], [], []⟩ true stdHeader [] "jeremy").trace,
        op.isUpsert = false :=
  C6_user_not_found ⟨[], [], []⟩ stdHeader [] "jeremy" rfl

/-- C9: every record yielded by `parse` carries a non-null `lastPlayed` (the
timestamp parse either succeeds with a value or aborts the sequence), so the
engine's `assert kodi_watched.last_played is not None` can never fire for a
parse-produced record - the `AssertionError` branch is unreachable. -/
theorem C9_assert_unreachable (header row : List String) (kw : KodiWatched)
    (h : parseRow header row = .ok kw) :
    kw.last_played.isSome = true ∧
    ∀ (user : JellyfinUser) (st : EngState),
      processRecord user st kw ≠ .error .assertionError := by
  have hlp : kw.last_played.isSome = true := parseRow_last_played_isSome h
  refine ⟨hlp, ?_⟩
  intro user st hcontra
  cases hp : kw.path with
  | error e =>
    simp only [processRecord, hp] at hcontra
    have := path_error_typeError hp
    subst this
    cases hcontra
  | ok p =>
    cases hs : skip p kw.folder with
    | true => rw [processRecord_skip hp hs] at hcontra; cases hcontra
    | false =>
      cases hkey : get_user_data_key_for_path st.db p with
      | none => rw [processRecord_unmatched hp hs hkey] at hcontra; cases hcontra
      | some key =>
        obtain ⟨t, ht⟩ := Option.isSome_iff_exists.mp hlp
        rw [processRecord_matched hp hs hkey ht] at hcontra
        cases hcontra

/-- Witness for C9 at the spec's example row. -/
theorem C9_assert_unreachable_witness :
    sampleKw.last_played.isSome = true ∧
    ∀ (user : JellyfinUser) (st : EngState),
      processRecord user st sampleKw ≠ .error .assertionError :=
  C9_assert_unreachable stdHeader ["/movies/", "foo.mkv", "2023-01-01T00:00:00", "3"]
    sampleKw rfl

/-- C10: over an entire run the engine never mutates the users store or the
items path-to-key mapping (they are only read), and the only `UserDatas`
rows modified are those whose keys are resolved from some non-skipped
record's path - every other key reads back unchanged. -/
theorem C10_frame (db : DB) (header : List String) (rows : List (List String))
    (username : String) :
    (kodi2jellyfin db true header rows username).db.users = db.users ∧
    (kodi2jellyfin db true header rows username).db.items = db.items ∧
    ∀ k : String,
      (∀ r ∈ rows, ∀ kw, parseRow header r = .ok kw → ∀ p, kw.path = .ok p →
        skip p kw.folder = false → get_user_data_key_for_path db p ≠ some k) →
      get_user_data (kodi2jellyfin db true header rows username).db k =
        get_user_data db k := by
  cases hu : get_user_by_name db username with
  | error e =>
    have hres : kodi2jellyfin db true header rows username =
        ⟨.error e, db, [], [], [Op.lookup_user username]⟩ := by
      simp [kodi2jellyfin, hu]
    rw [hres]
    exact ⟨rfl, rfl, fun k _ => rfl⟩
  | ok user =>
    cases hr : runRows header user ⟨db, [], [Op.lookup_user username]⟩ rows with
    | error e =>
      have hres : kodi2jellyfin db true header rows username =
          ⟨.error e, db, [], [], [Op.lookup_user username]⟩ := by
        simp [kodi2jellyfin, hu, hr]
      rw [hres]
      exact ⟨rfl, rfl, fun k _ => rfl⟩
    | ok st =>
      have hres : kodi2jellyfin db true header rows username =
          ⟨.ok (), st.db,
           if st.missing.isEmpty then [] else [warningText st.missing],
           st.missing, st.trace⟩ := by
        simp [kodi2jellyfin, hu, hr]
      obtain ⟨hus, hit, hframe⟩ :=
        runRows_frame header user rows ⟨db, [], [Op.lookup_user username]⟩ st hr
      rw [hres]
      exact ⟨hus, hit, fun k hk => hframe k hk⟩

/-- Witness for C10: a run whose only record is unmatched leaves the
pre-existing row for `key1` untouched. -/
theorem C10_frame_witness :
    get_user_data (kodi2jellyfin sampleDB true stdHeader
        [["/movies/", "bar.mkv", "2023-01-01T00:00:00", "2"]] "jeremy").db "key1" =
      get_user_data sampleDB "key1" := by
  refine (C10_frame sampleDB stdHeader
      [["/movies/", "bar.mkv", "2023-01-01T00:00:00", "2"]] "jeremy").2.2 "key1" ?_
  intro r hr kw hkw p hp hs
  simp only [List.mem_singleton] at hr
  subst hr
  have hkw' : (Except.ok sampleKwUnmatched : Except PyErr KodiWatched) = .ok kw := hkw
  cases hkw'
  have hp' : (Except.ok "/movies/bar.mkv" : Except PyErr String) = .ok p := hp
  cases hp'
  decide

/-- C4: an unmatched record (not skipped, no items-store mapping) causes no
destination write, is appended to the in-memory batch and processing
continues; after a successful pass the run returns normally (exit code 0)
and, when the batch is non-empty, exactly one combined warning is emitted
whose text contains every unmatched path. -/
theorem C4_unmatched_policy :
    (∀ (user : JellyfinUser) (st : EngState) (kw : KodiWatched) (p : String),
        kw.path = .ok p → skip p kw.folder = false →
        get_user_data_key_for_path st.db p = none →
        processRecord user st kw =
          .ok { st with missing := st.missing ++ [kw],
                        trace := st.trace ++ [Op.lookup_path p] }) ∧
    (∀ (db : DB) (header : List String) (rows : List (List String)) (username : String)
        (u : JellyfinUser),
        get_user_by_name db username = .ok u →
        (∀ r ∈ rows, ∃ kw, parseRow header r = .ok kw ∧ kw.folder.isSome = true ∧
            kw.file_name.isSome = true ∧ kw.last_played.isSome = true) →
        (kodi2jellyfin db true header rows username).result = .ok () ∧
        exitCode (kodi2jellyfin db true header rows username) = 0 ∧
        ((kodi2jellyfin db true header rows username).missing.isEmpty = true →
          (kodi2jellyfin db true header rows username).warnings = []) ∧
        ((kodi2jellyfin db true header rows username).missing.isEmpty = false →
          (kodi2jellyfin db true header rows username).warnings =
            [warningText (kodi2jellyfin db true header rows username).missing]) ∧
        (∀ kw ∈ (kodi2jellyfin db true header rows username).missing,
          ∃ u v : List Char,
            (warningText (kodi2jellyfin db true header rows username).missing).data =
              u ++ kw.pathOrEmpty.data ++ v)) := by
  constructor
  · intro user st kw p hp hs hkey
    exact processRecord_unmatched hp hs hkey
  · intro db header rows username u hu hrows
    obtain ⟨st', hst'⟩ :=
      runRows_total header u rows ⟨db, [], [Op.lookup_user username]⟩ hrows
    have hres : kodi2jellyfin db true header rows username =
        ⟨.ok (), st'.db,
         if st'.missing.isEmpty then [] else [warningText st'.missing],
         st'.missing, st'.trace⟩ := by
      simp [kodi2jellyfin, hu, hst']
    rw [hres]
    refine ⟨rfl, rfl, ?_, ?_, ?_⟩
    · intro hm
      simp [hm]
    · intro hm
      simp [hm]
    · intro kw hkw
      exact warningText_mem hkw

/-- Witness for C4: the unmatched record `/movies/bar.mkv` is deferred
without a write, and the run containing only that record exits normally. -/
theorem C4_unmatched_policy_witness :
    processRecord ⟨"jeremy", "u1"⟩ ⟨sampleDB, [], []⟩ sampleKwUnmatched =
      .ok ⟨sampleDB, [sampleKwUnmatched], [Op.lookup_path "/movies/bar.mkv"]⟩ ∧
    (kodi2jellyfin sampleDB true stdHeader
        [["/movies/", "bar.mkv", "2023-01-01T00:00:00", "2"]] "jeremy").result =
      .ok () := by
  constructor
  · exact C4_unmatched_policy.1 ⟨"jeremy", "u1"⟩ ⟨sampleDB, [], []⟩ sampleKwUnmatched
      "/movies/bar.mkv" rfl rfl rfl
  · exact (C4_unmatched_policy.2 sampleDB stdHeader
      [["/movies/", "bar.mkv", "2023-01-01T00:00:00", "2"]] "jeremy" ⟨"jeremy", "u1"⟩ rfl
      (fun r hr => by
        simp only [List.mem_singleton] at hr
        subst hr
        exact ⟨sampleKwUnmatched, rfl, rfl, rfl, rfl⟩)).1

/-- C7 counterexample: with the required columns ordered
`lastPlayed, playCount, strPath, strFileName` (column order is free in the
tab-separated format; `DictReader` looks fields up by name), a short row
is missing its `strPath` and `strFileName` fields (`DictReader` fills them
with `None`), yet `parse` succeeds and yields the record with null fields
instead of failing the sequence. -/
theorem C7_counterexample :
    lookupField ["lastPlayed", "playCount", "strPath", "strFileName"]
        ["2023-01-01T00:00:00", "3"] "strPath" = some none ∧
    lookupField ["lastPlayed", "playCount", "strPath", "strFileName"]
        ["2023-01-01T00:00:00", "3"] "strFileName" = some none ∧
    parseAll ["lastPlayed", "playCount", "strPath", "strFileName"]
        [["2023-01-01T00:00:00", "3"]] =
      .ok [⟨none, none, some ⟨"2023-01-01T00:00:00"⟩, 3⟩] :=
  ⟨rfl, rfl, rfl⟩

/-- C7 (amended): a row whose `lastPlayed` or `playCount` field is missing
its value or unparseable does fail, and whenever any row fails to decode the
whole sequence fails at the first such row with a malformed-record error;
but a short row missing only the `strPath`/`strFileName` values is yielded
with null fields rather than failing.  For well-formed input, `parse` yields
one record per non-header row, in file order. -/
theorem C7_amended :
    (∀ (header : List String) (pre : List (List String)) (bad : List String)
        (rest : List (List String)) (e : PyErr),
        (∀ r ∈ pre, ∃ kw, parseRow header r = .ok kw) →
        parseRow header bad = .error e →
        parseAll header (pre ++ bad :: rest) = .error e ∧ e.isMalformedRecord = true) ∧
    (∀ (header row : List String),
        (lookupField header row "lastPlayed" = some none ∨
         (∃ s, lookupField header row "lastPlayed" = some (some s) ∧
            isIsoDatetime s = false) ∨
         lookupField header row "playCount" = some none ∨
         (∃ s, lookupField header row "playCount" = some (some s) ∧
            pyIntStr s = none)) →
        ∃ e, parseRow header row = .error e ∧ e.isMalformedRecord = true) ∧
    (∀ (header : List String) (rows : List (List String)) (kws : List KodiWatched),
        parseAll header rows = .ok kws →
        kws.length = rows.length ∧
        ∀ (i : Nat) (r : List String), rows[i]? = some r →
          ∃ kw, parseRow header r = .ok kw ∧ kws[i]? = some kw) := by
  refine ⟨?_, ?_, ?_⟩
  · intro header pre bad rest e hpre hbad
    exact ⟨parseAll_error_at_first_bad header pre bad rest e hpre hbad,
           parseRow_error_malformed hbad⟩
  · intro header row hcond
    cases he : parseRow header row with
    | error e => exact ⟨e, rfl, parseRow_error_malformed he⟩
    | ok kw =>
      exfalso
      obtain ⟨folder, file_name, lpRaw, lp, pcRaw, h1, h2, h3, h4, h5, h6, _⟩ :=
        parseRow_ok_shape he
      rcases hcond with hc | ⟨s, hc, hiso⟩ | hc | ⟨s, hc, hpi⟩
      · have hlpn : lpRaw = none := by
          simp only [dictGet, hc, Except.ok.injEq] at h3
          exact h3.symm
        rw [hlpn] at h4
        simp [fromisoformat] at h4
      · have hlps : lpRaw = some s := by
          simp only [dictGet, hc, Except.ok.injEq] at h3
          exact h3.symm
        rw [hlps] at h4
        simp [fromisoformat, hiso] at h4
      · have hpcn : pcRaw = none := by
          simp only [dictGet, hc, Except.ok.injEq] at h5
          exact h5.symm
        rw [hpcn] at h6
        simp [pyInt] at h6
      · have hpcs : pcRaw = some s := by
          simp only [dictGet, hc, Except.ok.injEq] at h5
          exact h5.symm
        rw [hpcs] at h6
        simp [pyInt, hpi] at h6
  · intro header rows kws h
    exact parseAll_ok_nth header rows kws h

/-- Witness for the amended C7: an unparseable timestamp in the second row
fails the two-row sequence with a `ValueError`; a missing `playCount` value
fails a row; a well-formed one-row input yields exactly one record. -/
theorem C7_amended_witness :
    parseAll stdHeader
        [["/movies/", "foo.mkv", "2023-01-01T00:00:00", "3"],
         ["/movies/", "bar.mkv", "bad-date", "2"]] = .error .valueError ∧
    (∃ e, parseRow stdHeader ["/movies/", "foo.mkv", "2023-01-01T00:00:00"] = .error e ∧
       e.isMalformedRecord = true) ∧
    ([sampleKw].length =
      ([["/movies/", "foo.mkv", "2023-01-01T00:00:00", "3"]] : List (List String)).length) := by
  refine ⟨?_, ?_, ?_⟩
  · exact (C7_amended.1 stdHeader [["/movies/", "foo.mkv", "2023-01-01T00:00:00", "3"]]
      ["/movies/", "bar.mkv", "bad-date", "2"] [] .valueError
      (fun r hr => by
        simp only [List.mem_singleton] at hr
        subst hr
        exact ⟨sampleKw, rfl⟩) rfl).1
  · exact C7_amended.2.1 stdHeader ["/movies/", "foo.mkv", "2023-01-01T00:00:00"]
      (Or.inr (Or.inr (Or.inl rfl)))
  · exact (C7_amended.2.2 stdHeader [["/movies/", "foo.mkv", "2023-01-01T00:00:00", "3"]]
      [sampleKw] rfl).1

/-- C8 counterexample: `int()` accepts a negative count, so `parse` yields a
record with `playCount = -3 < 0` from the row
`("/movies/", "foo.mkv", "2023-01-01T00:00:00", "-3")`. -/
theorem C8_counterexample :
    parseAll stdHeader [["/movies/", "foo.mkv", "2023-01-01T00:00:00", "-3"]] =
      .ok [⟨some "/movies/", some "foo.mkv", some ⟨"2023-01-01T00:00:00"⟩, -3⟩] ∧
    ¬ (0 ≤ (⟨some "/movies/", some "foo.mkv", some ⟨"2023-01-01T00:00:00"⟩,
            -3⟩ : KodiWatched).play_count) :=
  ⟨rfl, by decide⟩

/-- C8 (amended): `parse` does not validate non-negativity - the record's
`playCount` is exactly the integer `int()` returns on the row's `playCount`
field, which may be negative; it is non-negative precisely when that parsed
integer is. -/
theorem dictGet_ok_iff {header row : List String} {name : String} {v : Option String} :
    dictGet header row name = .ok v ↔ lookupField header row name = some v := by
  unfold dictGet
  cases hl : lookupField header row name <;> simp

theorem C8_amended (header row : List String) (kw : KodiWatched)
    (h : parseRow header row = .ok kw) :
    ∃ v : String, lookupField header row "playCount" = some (some v) ∧
      pyIntStr v = some kw.play_count := by
  obtain ⟨folder, file_name, lpRaw, lp, pcRaw, h1, h2, h3, h4, h5, h6, _⟩ :=
    parseRow_ok_shape h
  cases pcRaw with
  | none => simp [pyInt] at h6
  | some v =>
    refine ⟨v, dictGet_ok_iff.mp h5, ?_⟩
    cases hpi : pyIntStr v with
    | none => simp [pyInt, hpi] at h6
    | some n =>
      simp only [pyInt, hpi, Except.ok.injEq] at h6
      rw [h6]

/-- Witness for the amended C8 at the negative-count row. -/
theorem C8_amended_witness :
    ∃ v : String,
      lookupField stdHeader ["/movies/", "foo.mkv", "2023-01-01T00:00:00", "-3"]
          "playCount" = some (some v) ∧
      pyIntStr v = some (-3 : Int) :=
  C8_amended stdHeader ["/movies/", "foo.mkv", "2023-01-01T00:00:00", "-3"]
    ⟨some "/movies/", some "foo.mkv", some ⟨"2023-01-01T00:00:00"⟩, -3⟩ rfl
